import Mathlib

/-!
Verification development for the sdf-builder repository.

The Python source is shallowly embedded over the real numbers: numpy /
pyeuclid floating-point values become `ℝ`, vectors and quaternions become
structures of real components, and methods become Lean functions on those
structures.  Fallible Python code (raised exceptions) is embedded with
`Except` / result pairs.  Definitions follow `sdfbuilder/math`,
`sdfbuilder/base/posable.py`, `sdfbuilder/physics/inertial.py`,
`sdfbuilder/element.py` and `sdfbuilder/structure/geometries.py`; the few
pieces of repository code missing from the snapshot (the vendored
`euclid.py` / `transformations.py` helpers) are modelled from the spec and
marked as such in their doc comments.
-/

namespace SdfB

/-- A 3-component vector (`Vector3` in `sdfbuilder/math`): wrapper over
three real components x, y, z. -/
@[ext]
structure Vector3 where
  x : ℝ
  y : ℝ
  z : ℝ

namespace Vector3

/-- Componentwise addition (`Vector3.__add__`). -/
def add (a b : Vector3) : Vector3 := ⟨a.x + b.x, a.y + b.y, a.z + b.z⟩

/-- Componentwise subtraction (`Vector3.__sub__`). -/
def sub (a b : Vector3) : Vector3 := ⟨a.x - b.x, a.y - b.y, a.z - b.z⟩

/-- Negation (`VectorBase.__neg__`). -/
def neg (a : Vector3) : Vector3 := ⟨-a.x, -a.y, -a.z⟩

/-- Scalar multiplication (numpy `scalar * array`). -/
def smul (r : ℝ) (a : Vector3) : Vector3 := ⟨r * a.x, r * a.y, r * a.z⟩

/-- Dot product (`Vector3.dot`). -/
def dot (a b : Vector3) : ℝ := a.x * b.x + a.y * b.y + a.z * b.z

/-- Cross product (`Vector3.cross`). -/
def cross (a b : Vector3) : Vector3 :=
  ⟨a.y * b.z - a.z * b.y, a.z * b.x - a.x * b.z, a.x * b.y - a.y * b.x⟩

/-- Euclidean norm (`VectorBase.__abs__` / `norm()`, `np.linalg.norm`). -/
noncomputable def norm (a : Vector3) : ℝ := Real.sqrt (dot a a)

/-- `VectorBase.normalized()`: the vector divided componentwise by its
norm (the call `self.norm()`). -/
noncomputable def normalized (a : Vector3) : Vector3 :=
  ⟨a.x / norm a, a.y / norm a, a.z / norm a⟩

/-- The zero vector (`Vector3()`). -/
def zero : Vector3 := ⟨0, 0, 0⟩

end Vector3

instance : Add Vector3 := ⟨Vector3.add⟩

instance : Sub Vector3 := ⟨Vector3.sub⟩

instance : Neg Vector3 := ⟨Vector3.neg⟩

instance : SMul ℝ Vector3 := ⟨Vector3.smul⟩

@[simp]
theorem Vector3.add_def (a b : Vector3) :
    a + b = ⟨a.x + b.x, a.y + b.y, a.z + b.z⟩ := rfl

@[simp]
theorem Vector3.sub_def (a b : Vector3) :
    a - b = ⟨a.x - b.x, a.y - b.y, a.z - b.z⟩ := rfl

@[simp]
theorem Vector3.neg_def (a : Vector3) : -a = ⟨-a.x, -a.y, -a.z⟩ := rfl

@[simp]
theorem Vector3.smul_def (r : ℝ) (a : Vector3) :
    r • a = ⟨r * a.x, r * a.y, r * a.z⟩ := rfl

/-- A quaternion (`Quaternion` in `sdfbuilder/math`): real components
w, x, y, z, w being the scalar part. -/
@[ext]
structure Quaternion where
  w : ℝ
  x : ℝ
  y : ℝ
  z : ℝ

namespace Quaternion

/-- Hamilton product (`Quaternion.__mul__` with a quaternion argument /
`quaternion_multiply`). -/
def mul (a b : Quaternion) : Quaternion :=
  ⟨a.w * b.w - a.x * b.x - a.y * b.y - a.z * b.z,
   a.w * b.x + a.x * b.w + a.y * b.z - a.z * b.y,
   a.w * b.y - a.x * b.z + a.y * b.w + a.z * b.x,
   a.w * b.z + a.x * b.y - a.y * b.x + a.z * b.w⟩

/-- Conjugate (`Quaternion.conjugated` / `quaternion_conjugate`). -/
def conj (a : Quaternion) : Quaternion := ⟨a.w, -a.x, -a.y, -a.z⟩

/-- Squared norm of a quaternion (the `dot(q, q)` scaling factor used by
`quaternion_inverse`). -/
def normSq (a : Quaternion) : ℝ := a.w ^ 2 + a.x ^ 2 + a.y ^ 2 + a.z ^ 2

/-- Inverse (`Quaternion.inversed` / `quaternion_inverse`): the conjugate
divided by the squared norm. -/
noncomputable def inv (a : Quaternion) : Quaternion :=
  ⟨a.w / normSq a, -a.x / normSq a, -a.y / normSq a, -a.z / normSq a⟩

/-- Embeds a vector as a pure quaternion (zero scalar part). -/
def ofVector (v : Vector3) : Quaternion := ⟨0, v.x, v.y, v.z⟩

/-- The identity quaternion (`Quaternion()`, the default pose rotation). -/
def one : Quaternion := ⟨1, 0, 0, 0⟩

/-- Modelled from the spec: `q * v` "rotates `v` by `q`" (the
`Quaternion.__mul__` branch for a `Vector3` argument, in the vendored
`euclid.py` which is missing from the snapshot), embedded as the sandwich
product `q · (0, v) · q*`, whose vector part is returned.  On unit
quaternions the sandwich coincides with the spec's "equivalent rotation
matrix" reading (`get_matrix3` here); off the unit sphere the two
readings differ by the squared norm, and every theorem below either
applies this action to unit quaternions only or applies the same action
on both sides of an equality, so no claim is settled on that
difference. -/
def rotate (q : Quaternion) (v : Vector3) : Vector3 :=
  let r := mul (mul q (ofVector v)) (conj q)
  ⟨r.x, r.y, r.z⟩

end Quaternion

/-- A pose (`Pose` element): a position vector plus a rotation
quaternion, both defaulting to the identity. -/
@[ext]
structure Pose where
  position : Vector3
  rotation : Quaternion

/-- The default pose: zero position and identity rotation. -/
def Pose.identity : Pose := ⟨Vector3.zero, Quaternion.one⟩

namespace Pose

/-- `Posable.to_parent_direction`: rotate a local direction vector by the
pose rotation. -/
def to_parent_direction (p : Pose) (v : Vector3) : Vector3 :=
  Quaternion.rotate p.rotation v

/-- `Posable.to_local_direction`: rotate a parent-frame direction vector
by the conjugated pose rotation. -/
def to_local_direction (p : Pose) (v : Vector3) : Vector3 :=
  Quaternion.rotate p.rotation.conj v

/-- `Posable.to_parent_frame`: rotate a local point and add the pose
position. -/
def to_parent_frame (p : Pose) (v : Vector3) : Vector3 :=
  Quaternion.rotate p.rotation v + p.position

/-- `Posable.to_local_frame`: subtract the pose position from a
parent-frame point and rotate by the conjugated rotation. -/
def to_local_frame (p : Pose) (v : Vector3) : Vector3 :=
  Quaternion.rotate p.rotation.conj (v - p.position)

end Pose

/-- A posable (`Posable`): an element owning a pose.  The name and the
child-element list take no part in any frame computation and are not
modelled here. -/
@[ext]
structure Posable where
  pose : Pose

namespace Posable

/-- `Posable.get_rotation`. -/
def get_rotation (p : Posable) : Quaternion := p.pose.rotation

/-- `Posable.get_position`. -/
def get_position (p : Posable) : Vector3 := p.pose.position

/-- `Posable.set_rotation`: overwrite the pose rotation. -/
def set_rotation (p : Posable) (q : Quaternion) : Posable :=
  ⟨⟨p.pose.position, q⟩⟩

/-- `Posable.set_position`: overwrite the pose position. -/
def set_position (p : Posable) (v : Vector3) : Posable :=
  ⟨⟨v, p.pose.rotation⟩⟩

/-- `Posable.to_parent_direction`. -/
def to_parent_direction (p : Posable) (v : Vector3) : Vector3 :=
  p.pose.to_parent_direction v

/-- `Posable.to_local_direction`. -/
def to_local_direction (p : Posable) (v : Vector3) : Vector3 :=
  p.pose.to_local_direction v

/-- `Posable.to_parent_frame`. -/
def to_parent_frame (p : Posable) (v : Vector3) : Vector3 :=
  p.pose.to_parent_frame v

/-- `Posable.to_local_frame`. -/
def to_local_frame (p : Posable) (v : Vector3) : Vector3 :=
  p.pose.to_local_frame v

end Posable

/-- Modelled from the spec: `Quaternion.new_rotate_axis(angle, axis)`
("construction from angle+axis", vendored `euclid.py` missing from the
snapshot): normalizes the axis and builds the half-angle quaternion. -/
noncomputable def Quaternion.new_rotate_axis (angle : ℝ) (axis : Vector3) :
    Quaternion :=
  let n := axis.normalized
  ⟨Real.cos (angle / 2), n.x * Real.sin (angle / 2),
   n.y * Real.sin (angle / 2), n.z * Real.sin (angle / 2)⟩

/-- `Posable.rotate_around(axis, angle, relative_to_child)`: optionally
convert the axis to the parent frame, build the angle-axis quaternion and
pre-multiply it onto the current rotation. -/
noncomputable def Posable.rotate_around (p : Posable) (axis : Vector3)
    (angle : ℝ) (relative_to_child : Bool) : Posable :=
  let ax := if relative_to_child then p.to_parent_direction axis else axis
  p.set_rotation (Quaternion.mul (Quaternion.new_rotate_axis angle ax)
    p.get_rotation)

/-! ## Element and Inertial (`sdfbuilder/element.py`, `physics/inertial.py`) -/

/-- The keyword arguments relevant to `Element.__init__` and to the
`Inertial(...)` call sites in the source.  Python passes these as a
`**kwargs` dict; we model the keys these call sites use, each `none` when
the caller omits it. -/
structure ElemKwargs where
  attributes : Option (List (String × String))
  tag_name : Option String
  body : Option String
  mass : Option ℝ
  ixx : Option ℝ
  ixy : Option ℝ
  ixz : Option ℝ
  iyy : Option ℝ
  iyz : Option ℝ
  izz : Option ℝ

/-- The empty keyword-argument dict. -/
def ElemKwargs.empty : ElemKwargs :=
  ⟨none, none, none, none, none, none, none, none, none, none⟩

/-- The state `Element.__init__` produces: it reads only the
`attributes`, `tag_name` and `body` keys of its kwargs (defaulting to an
empty dict, `None` and the empty string) and ignores every other key.
The sub-element list it also initializes is always empty at construction
and takes no part in the claims, so it is not carried here. -/
structure Element where
  attributes : List (String × String)
  tag_name : Option String
  body : String

/-- `Element.__init__`. -/
def Element.init (kw : ElemKwargs) : Element :=
  ⟨kw.attributes.getD [], kw.tag_name, kw.body.getD ""⟩

/-- The state of an `Inertial` element: the inherited element state plus
the six tensor entries and the mass. -/
structure Inertial where
  elem : Element
  ixx : ℝ
  ixy : ℝ
  ixz : ℝ
  iyy : ℝ
  iyz : ℝ
  izz : ℝ
  mass : ℝ

/-- `Inertial.__init__`: forwards the kwargs to `Element.__init__` (which
ignores the inertial keys) and then unconditionally assigns
`ixx, ixy, ixz = 1, 0, 0`, `iyy, iyz = 1, 0`, `izz = 1` and
`mass = 1.0`.  The caller-supplied `mass`/`ixx`/… kwargs are therefore
discarded. -/
def Inertial.init (kw : ElemKwargs) : Inertial :=
  ⟨Element.init kw, 1, 0, 0, 1, 0, 1, 1.0⟩

/-! ## Geometries (`sdfbuilder/structure/geometries.py`) -/

/-- The shape data of a concrete `Geometry` subclass: `Box` stores its
`size` triple, `Cylinder` its radius and length, `Sphere` its radius;
`base` is a plain base-class `Geometry` with no shape. -/
inductive Shape where
  | base
  | box (x y z : ℝ)
  | cylinder (radius length : ℝ)
  | sphere (radius : ℝ)

/-- A geometry: a posable (pose) together with its shape data. -/
structure Geometry where
  pose : Pose
  shape : Shape

/-- The keyword arguments read by the `get_inertial` overrides:
`tube` and `r1` (cylinder), `solid` (sphere). -/
structure GeomKwargs where
  tube : Option Bool
  r1 : Option ℝ
  solid : Option Bool

/-- The empty geometry-kwargs dict. -/
def GeomKwargs.empty : GeomKwargs := ⟨none, none, none⟩

/-- Python exceptions raised by the embedded code. -/
inductive PyErr where
  | notImplementedError (msg : String)
  | attributeError (msg : String)
  | typeError

/-- Builds the kwargs dict for the `Inertial(mass=..., ixx=..., iyy=...,
izz=...)` calls of the primitive `get_inertial` overrides (no cross
terms are passed there). -/
def inertialKwargsDiag (mass ixx iyy izz : ℝ) : ElemKwargs :=
  ⟨none, none, none, some mass, some ixx, none, none, some iyy, none, some izz⟩

/-- `Geometry.get_inertial` and its overrides: the base class raises
`NotImplementedError`; `Box` computes `r = mass / 12` and the box
diagonal entries; `Cylinder` supports the `tube=True` kwarg (raising
`AttributeError` when `r1` is missing); `Sphere` supports the `solid`
kwarg.  Every override returns `Inertial(mass=..., ixx=..., iyy=...,
izz=...)`. -/
noncomputable def Geometry.get_inertial (g : Geometry) (mass : ℝ)
    (kw : GeomKwargs) : Except PyErr Inertial :=
  match g.shape with
  | .base => .error (.notImplementedError
      "`get_inertial` is not available for base geometries.")
  | .box x y z =>
      let r := mass / 12.0
      .ok (Inertial.init
        (inertialKwargsDiag mass (r * (y ^ 2 + z ^ 2)) (r * (x ^ 2 + z ^ 2))
          (r * (x ^ 2 + y ^ 2))))
  | .cylinder radius length =>
      if kw.tube.getD false then
        match kw.r1 with
        | none => .error (.attributeError
            "Tube inertia requires `r1` radius for cylinder.")
        | some r1 =>
            let r := radius ^ 2 + r1 ^ 2
            let ixx := (3 * r + length ^ 2) * mass / 12.0
            .ok (Inertial.init
              (inertialKwargsDiag mass ixx ixx (0.5 * mass * r)))
      else
        let r := radius ^ 2
        let ixx := (3 * r + length ^ 2) * mass / 12.0
        .ok (Inertial.init (inertialKwargsDiag mass ixx ixx (0.5 * mass * r)))
  | .sphere radius =>
      let solid := kw.solid.getD true
      let frac : ℝ := if solid then 5.0 else 3.0
      let ixx := (2 * mass * radius ^ 2) / frac
      .ok (Inertial.init (inertialKwargsDiag mass ixx ixx ixx))

/-- `Geometry.get_center_of_mass`: the origin for every primitive. -/
def Geometry.get_center_of_mass (_ : Geometry) : Vector3 := Vector3.zero

/-- Modelled from the spec: `Posable.to_sibling_frame(vec, sibling)`
(the method lives in the revision of `posable.py` missing from the
snapshot; the spec describes it as converting a point between two nodes
sharing a parent frame) — convert to the shared parent frame, then into
the sibling's local frame. -/
noncomputable def Geometry.to_sibling_frame (g : Geometry) (v : Vector3)
    (sibling : Pose) : Vector3 :=
  sibling.to_local_frame (g.pose.to_parent_frame v)

/-- A 3×3 matrix, row-major fields. -/
@[ext]
structure Mat3 where
  m00 : ℝ
  m01 : ℝ
  m02 : ℝ
  m10 : ℝ
  m11 : ℝ
  m12 : ℝ
  m20 : ℝ
  m21 : ℝ
  m22 : ℝ

namespace Mat3

/-- The zero matrix (`np.zeros((3, 3))`). -/
def zero : Mat3 := ⟨0, 0, 0, 0, 0, 0, 0, 0, 0⟩

/-- The identity matrix (`np.eye(3)`). -/
def one : Mat3 := ⟨1, 0, 0, 0, 1, 0, 0, 0, 1⟩

/-- Entrywise sum. -/
def add (a b : Mat3) : Mat3 :=
  ⟨a.m00 + b.m00, a.m01 + b.m01, a.m02 + b.m02,
   a.m10 + b.m10, a.m11 + b.m11, a.m12 + b.m12,
   a.m20 + b.m20, a.m21 + b.m21, a.m22 + b.m22⟩

/-- Entrywise difference. -/
def sub (a b : Mat3) : Mat3 :=
  ⟨a.m00 - b.m00, a.m01 - b.m01, a.m02 - b.m02,
   a.m10 - b.m10, a.m11 - b.m11, a.m12 - b.m12,
   a.m20 - b.m20, a.m21 - b.m21, a.m22 - b.m22⟩

/-- Entrywise scalar multiple. -/
def smul (r : ℝ) (a : Mat3) : Mat3 :=
  ⟨r * a.m00, r * a.m01, r * a.m02,
   r * a.m10, r * a.m11, r * a.m12,
   r * a.m20, r * a.m21, r * a.m22⟩

/-- Matrix product (`np.dot`). -/
def mul (a b : Mat3) : Mat3 :=
  ⟨a.m00 * b.m00 + a.m01 * b.m10 + a.m02 * b.m20,
   a.m00 * b.m01 + a.m01 * b.m11 + a.m02 * b.m21,
   a.m00 * b.m02 + a.m01 * b.m12 + a.m02 * b.m22,
   a.m10 * b.m00 + a.m11 * b.m10 + a.m12 * b.m20,
   a.m10 * b.m01 + a.m11 * b.m11 + a.m12 * b.m21,
   a.m10 * b.m02 + a.m11 * b.m12 + a.m12 * b.m22,
   a.m20 * b.m00 + a.m21 * b.m10 + a.m22 * b.m20,
   a.m20 * b.m01 + a.m21 * b.m11 + a.m22 * b.m21,
   a.m20 * b.m02 + a.m21 * b.m12 + a.m22 * b.m22⟩

/-- Transpose. -/
def transpose (a : Mat3) : Mat3 :=
  ⟨a.m00, a.m10, a.m20, a.m01, a.m11, a.m21, a.m02, a.m12, a.m22⟩

end Mat3

/-- Outer product `np.outer(t, t)` of a vector with another. -/
def Vector3.outer (a b : Vector3) : Mat3 :=
  ⟨a.x * b.x, a.x * b.y, a.x * b.z,
   a.y * b.x, a.y * b.y, a.y * b.z,
   a.z * b.x, a.z * b.y, a.z * b.z⟩

/-- `Quaternion.get_matrix` restricted to its 3×3 rotation block, as used
by `CompoundGeometry.get_inertial` (`rot_quat.get_matrix()[:3, :3]`).
The conversion itself lives in the vendored `transformations.py` /
`euclid.py` (missing from the snapshot) and is modelled from the spec
("conversion to/from a rotation matrix"): the standard matrix of the
quaternion, scale-normalized by the squared norm, the identity when that
norm is zero. -/
noncomputable def Quaternion.get_matrix3 (q : Quaternion) : Mat3 :=
  let n := q.normSq
  if n = 0 then Mat3.one
  else
    let s := 2 / n
    ⟨1 - s * (q.y ^ 2 + q.z ^ 2), s * (q.x * q.y - q.z * q.w),
       s * (q.x * q.z + q.y * q.w),
     s * (q.x * q.y + q.z * q.w), 1 - s * (q.x ^ 2 + q.z ^ 2),
       s * (q.y * q.z - q.x * q.w),
     s * (q.x * q.z - q.y * q.w), s * (q.y * q.z + q.x * q.w),
       1 - s * (q.x ^ 2 + q.y ^ 2)⟩

/-- A compound geometry: the group pose plus the list of
`(geometry, mass, kwargs)` entries added by `add_geometry`. -/
structure CompoundGeometry where
  pose : Pose
  geometries : List (Geometry × ℝ × GeomKwargs)

namespace CompoundGeometry

/-- The first loop of `CompoundGeometry.get_inertial`: total mass. -/
def total_mass (c : CompoundGeometry) : ℝ :=
  (c.geometries.map (fun e => e.2.1)).sum

/-- The first loop of `CompoundGeometry.get_inertial`: the accumulated
`mass * geom_center` sum (before the division by the total mass). -/
noncomputable def center_sum (c : CompoundGeometry) : Vector3 :=
  c.geometries.foldr
    (fun e acc =>
      acc + e.2.1 • e.1.to_sibling_frame e.1.get_center_of_mass c.pose)
    Vector3.zero

/-- The center of mass: `center_sum` divided by the total mass when that
is positive (`if total_mass > 0`). -/
noncomputable def center_mass (c : CompoundGeometry) : Vector3 :=
  if 0 < c.total_mass then (1 / c.total_mass) • c.center_sum
  else c.center_sum

/-- The `j1` contribution of one `(geometry, mass, args)` entry in the
second loop of `CompoundGeometry.get_inertial`: the sub-geometry's
inertia matrix rotated into the compound frame plus the parallel-axis
term. -/
noncomputable def contribution (cpose : Pose) (cm : Vector3)
    (e : Geometry × ℝ × GeomKwargs) : Except PyErr Mat3 := do
  let geometry := e.1
  let mass := e.2.1
  let geom_center := geometry.to_sibling_frame geometry.get_center_of_mass
    cpose
  let ia ← geometry.get_inertial mass e.2.2
  let i1 : Mat3 := ⟨ia.ixx, ia.ixy, ia.ixz, ia.ixy, ia.iyy, ia.iyz,
    ia.ixz, ia.iyz, ia.izz⟩
  let rot_quat := Quaternion.mul cpose.rotation.conj geometry.pose.rotation
  let r1 := rot_quat.get_matrix3
  let it := (r1.mul i1).mul r1.transpose
  let t1 := cm - geom_center
  let j1 := it.add (Mat3.smul mass
    ((Mat3.smul (Vector3.dot t1 t1) Mat3.one).sub (t1.outer t1)))
  pure j1

/-- The second loop of `CompoundGeometry.get_inertial`: sum of the `j1`
contributions. -/
noncomputable def i_final (cpose : Pose) (cm : Vector3) :
    List (Geometry × ℝ × GeomKwargs) → Except PyErr Mat3
  | [] => .ok Mat3.zero
  | e :: rest => do
      let j ← contribution cpose cm e
      let s ← i_final cpose cm rest
      pure (j.add s)

/-- `CompoundGeometry.get_inertial`: compute the total mass, the center
of mass and the summed tensor, then return `Inertial(mass=total_mass,
ixx=..., iyy=..., izz=..., ixy=..., ixz=..., iyz=...)`. -/
noncomputable def get_inertial (c : CompoundGeometry) :
    Except PyErr Inertial := do
  let cm := c.center_mass
  let m ← i_final c.pose cm c.geometries
  pure (Inertial.init
    ⟨none, none, none, some c.total_mass, some m.m00, some m.m01,
      some m.m02, some m.m11, some m.m12, some m.m22⟩)

end CompoundGeometry

/-- The value every `Inertial(...)` construction produces: empty element
state and the constructor-assigned defaults. -/
def inertialDefault : Inertial := ⟨⟨[], none, ""⟩, 1, 0, 0, 1, 0, 1, 1.0⟩

/-- `Box(4, 8, 12)` at the group origin with identity rotation. -/
def box4812 : Geometry := ⟨Pose.identity, .box 4 8 12⟩

/-- A `Box(x, y, z)` translated to `(0, 0, pz)` with identity rotation. -/
noncomputable def boxAtZ (x y z pz : ℝ) : Geometry := ⟨⟨⟨0, 0, pz⟩, Quaternion.one⟩, .box x y z⟩

/-- The compound of two `Box(4, 8, 12)` entries of mass 50 each at the
group origin. -/
def compoundTwoHalves : CompoundGeometry :=
  ⟨Pose.identity, [(box4812, 50, GeomKwargs.empty),
    (box4812, 50, GeomKwargs.empty)]⟩

/-- The stacked compound: `Box(4, 8, 5)` of mass `100 * 5 / 12` translated
`+2.5` on z and `Box(4, 8, 7)` of mass `100 * 7 / 12` translated `-3.5`
on z. -/
noncomputable def compoundStacked : CompoundGeometry :=
  ⟨Pose.identity, [(boxAtZ 4 8 5 2.5, 100 * 5 / 12, GeomKwargs.empty),
    (boxAtZ 4 8 7 (-3.5), 100 * 7 / 12, GeomKwargs.empty)]⟩

/-- `Box(10, 20, 30)`. -/
def box102030 : Geometry := ⟨Pose.identity, .box 10 20 30⟩

/-! ## PosableGroup (`sdfbuilder/base/posable.py`) -/

/-- An entry of a group's `elements` list: either a `Posable` child
carrying its `PARENT_FRAME` class flag and its pose, or some non-posable
element (ignored by `get_affected_posables`). -/
inductive GroupElem where
  | posable (parent_frame : Bool) (pose : Pose)
  | nonPosable

/-- The `isinstance(posable, Posable) and posable.PARENT_FRAME` filter of
`PosableGroup.get_affected_posables`. -/
def GroupElem.affected : GroupElem → Bool
  | .posable pf _ => pf
  | .nonPosable => false

/-- A `PosableGroup`: its own bookkeeping pose plus the child-element
list.  Distinct list entries model distinct Python child objects (each
owns its own pose). -/
structure PosableGroup where
  pose : Pose
  elements : List GroupElem

/-- `PosableGroup.set_rotation(rotation)`: reads the bookkeeping position
and the conjugated current rotation once, then for every frame-affected
child computes the original relative position/rotation, re-applies the
new rotation and stores the new absolute pose on that child; finally
stores the new rotation as its own (the bookkeeping position is
untouched).  Unaffected elements are left as they are. -/
def PosableGroup.set_rotation (g : PosableGroup) (rotation : Quaternion) :
    PosableGroup :=
  let root_position := g.pose.position
  let inv_rotation := g.pose.rotation.conj
  { pose := ⟨root_position, rotation⟩,
    elements := g.elements.map (fun e =>
      match e with
      | .posable true p =>
          let orig_position :=
            Quaternion.rotate inv_rotation (p.position - root_position)
          let orig_rotation := Quaternion.mul inv_rotation p.rotation
          let new_position :=
            Quaternion.rotate rotation orig_position + root_position
          let new_rotation := Quaternion.mul rotation orig_rotation
          .posable true ⟨new_position, new_rotation⟩
      | e => e) }

/-- C3: for every keyword-argument call, the `Inertial` constructor
discards the caller-supplied `mass`, `ixx`, `iyy`, `izz`, `ixy`, `ixz`
and `iyz` values (`Element.__init__` reads only `attributes`, `tag_name`
and `body` from its kwargs, and `Inertial.__init__` then assigns defaults
after the super call), so every freshly constructed `Inertial` has mass
1.0, `ixx = iyy = izz = 1` and `ixy = ixz = iyz = 0` regardless of the
arguments passed. -/
theorem inertial_constructor_discards_kwargs (kw : ElemKwargs) :
    (Inertial.init kw).mass = 1.0 ∧ (Inertial.init kw).ixx = 1 ∧
    (Inertial.init kw).iyy = 1 ∧ (Inertial.init kw).izz = 1 ∧
    (Inertial.init kw).ixy = 0 ∧ (Inertial.init kw).ixz = 0 ∧
    (Inertial.init kw).iyz = 0 :=
  ⟨rfl, rfl, rfl, rfl, rfl, rfl, rfl⟩

/-- C2 (evaluation at the failing input): `Box(10, 20, 30).get_inertial(250)`
returns the constructor-default `Inertial` — mass 1.0 and
`ixx = iyy = izz = 1` — and its `ixx` is not the value
`250 * (20² + 30²) / 12 = 27083.33…` the claim and the repository's own
`test_box_inertia` expect, because `Inertial.__init__` discards the
keyword arguments `Box.get_inertial` passes it. -/
theorem box_get_inertial_returns_defaults :
    box102030.get_inertial 250 GeomKwargs.empty = .ok inertialDefault ∧
    inertialDefault.ixx = 1 ∧ inertialDefault.iyy = 1 ∧
    inertialDefault.izz = 1 ∧ inertialDefault.mass = 1.0 ∧
    inertialDefault.ixx ≠ 250 * (20 ^ 2 + 30 ^ 2) / 12 := by
  refine ⟨rfl, rfl, rfl, rfl, rfl, ?_⟩
  show (1 : ℝ) ≠ 250 * (20 ^ 2 + 30 ^ 2) / 12
  norm_num

/-- C1: a single `Box(4, 8, 12)` with mass 100 and a `CompoundGeometry`
containing two `Box(4, 8, 12)` entries of mass 50 each, both posed at the
group origin with identity rotation, yield via `get_inertial` the same
total mass and the same six inertia-tensor entries; likewise for the
stacked decomposition into `Box(4, 8, 5)` of mass `100 * 5 / 12`
translated `+2.5` on z and `Box(4, 8, 7)` of mass `100 * 7 / 12`
translated `-3.5` on z.  (The equality holds degenerately: every
`Inertial(...)` call returns the constructor defaults, so both sides of
each comparison are the same default `Inertial`.) -/
theorem compound_inertia_decomposition_invariance :
    ∃ iBox iA iB : Inertial,
      box4812.get_inertial 100 GeomKwargs.empty = .ok iBox ∧
      compoundTwoHalves.get_inertial = .ok iA ∧
      compoundStacked.get_inertial = .ok iB ∧
      (iBox.mass = iA.mass ∧ iBox.ixx = iA.ixx ∧ iBox.iyy = iA.iyy ∧
       iBox.izz = iA.izz ∧ iBox.ixy = iA.ixy ∧ iBox.ixz = iA.ixz ∧
       iBox.iyz = iA.iyz) ∧
      (iBox.mass = iB.mass ∧ iBox.ixx = iB.ixx ∧ iBox.iyy = iB.iyy ∧
       iBox.izz = iB.izz ∧ iBox.ixy = iB.ixy ∧ iBox.ixz = iB.ixz ∧
       iBox.iyz = iB.iyz) := by
  refine ⟨inertialDefault, inertialDefault, inertialDefault, rfl, ?_, ?_,
    ⟨rfl, rfl, rfl, rfl, rfl, rfl, rfl⟩, ⟨rfl, rfl, rfl, rfl, rfl, rfl, rfl⟩⟩
  · rfl
  · rfl

/-! ## Parallelism / orthogonality tests (`sdfbuilder/math/__init__.py`) -/

/-- The `EPSILON` zero-comparison constant (`1e-5` in the source). -/
noncomputable def EPSILON : ℝ := 1 / 100000

/-- The `OPPOSITE` constant. -/
def OPPOSITE : ℤ := -1

/-- The `PARALLEL` constant. -/
def PARALLEL : ℤ := 1

/-- The `NOT_PARALLEL` constant. -/
def NOT_PARALLEL : ℤ := 0

/-- `vector_parallellism(a, b)`: the dot product of the normalized
vectors classified against `±1` with the `EPSILON` tolerance. -/
noncomputable def vector_parallellism (a b : Vector3) : ℤ :=
  let d := Vector3.dot a.normalized b.normalized
  if d ≤ -1 + EPSILON then OPPOSITE
  else if 1 - EPSILON ≤ d then PARALLEL
  else NOT_PARALLEL

/-- `vectors_parallel(a, b)`: `vector_parallellism(a, b) == PARALLEL`. -/
noncomputable def vectors_parallel (a b : Vector3) : Prop :=
  vector_parallellism a b = PARALLEL

/-- `vectors_orthogonal(a, b)`: the absolute dot product of the
normalized vectors is at most `EPSILON`. -/
noncomputable def vectors_orthogonal (a b : Vector3) : Prop :=
  |Vector3.dot a.normalized b.normalized| ≤ EPSILON

/-! ## `Posable.align` (`sdfbuilder/base/posable.py`) -/

/-- The exceptions `align` raises: the two `ValueError` precondition
failures and the two `assert` postcondition failures. -/
inductive AlignError where
  | valueError (msg : String)
  | assertionError (msg : String)

/-- Builds a 3×3 matrix from its columns ("Assignment happens by
columns" in the `align` source: `r[0:3], r[4:7], r[8:11] = x, y, z`). -/
def Mat3.ofColumns (c0 c1 c2 : Vector3) : Mat3 :=
  ⟨c0.x, c1.x, c2.x, c0.y, c1.y, c2.y, c0.z, c1.z, c2.z⟩

/-- Modelled from the spec: `RotationMatrix.get_quaternion` ("extraction
of an equivalent Quaternion"; the conversion routine lives in the
vendored math module missing from the snapshot).  The standard Shepperd
branches: the trace branch when the trace is positive, otherwise the
branch of the largest diagonal entry. -/
noncomputable def Mat3.get_quaternion (m : Mat3) : Quaternion :=
  let t := m.m00 + m.m11 + m.m22
  if 0 < t then
    let s := 2 * Real.sqrt (t + 1)
    ⟨s / 4, (m.m21 - m.m12) / s, (m.m02 - m.m20) / s, (m.m10 - m.m01) / s⟩
  else if m.m11 ≤ m.m00 ∧ m.m22 ≤ m.m00 then
    let s := 2 * Real.sqrt (1 + m.m00 - m.m11 - m.m22)
    ⟨(m.m21 - m.m12) / s, s / 4, (m.m01 + m.m10) / s, (m.m02 + m.m20) / s⟩
  else if m.m22 ≤ m.m11 then
    let s := 2 * Real.sqrt (1 + m.m11 - m.m00 - m.m22)
    ⟨(m.m02 - m.m20) / s, (m.m01 + m.m10) / s, s / 4, (m.m12 + m.m21) / s⟩
  else
    let s := 2 * Real.sqrt (1 + m.m22 - m.m00 - m.m11)
    ⟨(m.m10 - m.m01) / s, (m.m02 + m.m20) / s, (m.m12 + m.m21) / s, s / 4⟩

open scoped Classical

/-- The rotation `align` computes and stores: the orthonormal basis
`(my_x, my_y, my_z)` built from `self`'s parent-frame normal/tangent
directions, the basis `(at_x, at_y, at_z)` built from `of`'s negated
normal and tangent, and the product `r2 * r1ᵀ` of the column matrices,
extracted as a quaternion.  (Factored out of `align` verbatim.) -/
noncomputable def align_rotation (self of : Posable)
    (my_normalL my_tangentL at_normalL at_tangentL : Vector3) : Quaternion :=
  let my_x := (self.to_parent_direction my_normalL).normalized
  let my_y := (self.to_parent_direction my_tangentL).normalized
  let my_z := my_x.cross my_y
  let at_x := (of.to_parent_direction (-at_normalL)).normalized
  let at_y := (of.to_parent_direction at_tangentL).normalized
  let at_z := at_x.cross at_y
  let r1 := Mat3.ofColumns my_x my_y my_z
  let r2 := Mat3.ofColumns at_x at_y at_z
  (r2.mul r1.transpose).get_quaternion

/-- `Posable.align(my, my_normal, my_tangent, at, at_normal, at_tangent,
of, relative_to_child)`, embedded as a function from the pre-call state
of `self` to the post-call state paired with the raised exception (if
any).  Mirrors the source order: the two orthogonality `ValueError`
checks come first (before any mutation); then the optional conversion of
the six vectors into the child frames; then the two orthonormal bases,
the rotation `r2 * r1ᵀ` and `set_rotation` of its quaternion; then the
two parallelism `assert`s (raised *after* the rotation was stored); and
finally the translation making the reference points coincide. -/
noncomputable def Posable.align (self : Posable)
    (my my_normal my_tangent at_v at_normal at_tangent : Vector3)
    (of : Posable) (relative_to_child : Bool) :
    Posable × Option AlignError :=
  if ¬ vectors_orthogonal my_normal my_tangent then
    (self, some (.valueError "`my_normal` and `my_tangent` should be orthogonal."))
  else if ¬ vectors_orthogonal at_normal at_tangent then
    (self, some (.valueError "`at_normal` and `at_tangent` should be orthogonal."))
  else
    let myL := if relative_to_child then my else self.to_local_frame my
    let my_normalL := if relative_to_child then my_normal
      else self.to_local_direction my_normal
    let my_tangentL := if relative_to_child then my_tangent
      else self.to_local_direction my_tangent
    let atL := if relative_to_child then at_v else of.to_local_frame at_v
    let at_normalL := if relative_to_child then at_normal
      else of.to_local_direction at_normal
    let at_tangentL := if relative_to_child then at_tangent
      else of.to_local_direction at_tangent
    let self1 := self.set_rotation
      (align_rotation self of my_normalL my_tangentL at_normalL at_tangentL)
    if ¬ vectors_parallel (self1.to_parent_direction my_normalL)
        (of.to_parent_direction (-at_normalL)) then
      (self1, some (.assertionError "Normal vectors failed to align!"))
    else if ¬ vectors_parallel (self1.to_parent_direction my_tangentL)
        (of.to_parent_direction at_tangentL) then
      (self1, some (.assertionError "Tangent vectors failed to align!"))
    else
      let my_pos := self1.to_parent_frame myL
      let at_pos := of.to_parent_frame atL
      let translation := at_pos - my_pos
      (self1.set_position (self1.get_position + translation), none)

/-! ## `sdfbuilder/math/classes.py` (the numpy-backed variant) -/

/-- A Python scalar-position value in `math/classes.py`: either an actual
number or a bound method object (what an attribute access like
`self.norm` — without the call parentheses — evaluates to). -/
inductive PyScalar where
  | num (r : ℝ)
  | boundMethod (name : String)

namespace MathClasses

/-- The `VectorBase` of `math/classes.py`: a wrapper over a numpy array
of any length (3 for its `Vector3`, 4 for its `Quaternion`). -/
structure VectorBase where
  data : List ℝ

/-- The value of the attribute expression `self.norm` in
`math/classes.py`: `norm = __abs__` is a method, so the attribute access
without parentheses yields the bound method object, not a number. -/
def VectorBase.norm_attr (_ : VectorBase) : PyScalar := .boundMethod "norm"

/-- The value of the call `self.norm()` (`np.linalg.norm(self.data)`). -/
noncomputable def VectorBase.norm_call (v : VectorBase) : ℝ :=
  Real.sqrt ((v.data.map (fun r => r * r)).sum)

/-- numpy in-place division `data /= d`: componentwise division by a
number; dividing an array by a non-numeric object (such as a bound
method) raises `TypeError`. -/
noncomputable def np_itruediv (data : List ℝ) (d : PyScalar) :
    Except PyErr (List ℝ) :=
  match d with
  | .num r => .ok (data.map (fun v => v / r))
  | .boundMethod _ => .error .typeError

/-- `VectorBase.normalize`: `self.data /= self.norm` — the divisor is the
attribute `self.norm` (the bound method, no call parentheses). -/
noncomputable def VectorBase.normalize (v : VectorBase) :
    Except PyErr VectorBase :=
  (np_itruediv v.data v.norm_attr).map VectorBase.mk

/-- `VectorBase.normalized`: `Vector3(self.data / self.norm())` — here
the norm *is* called, so this one divides by the number. -/
noncomputable def VectorBase.normalized (v : VectorBase) : VectorBase :=
  ⟨v.data.map (fun r => r / v.norm_call)⟩

/-- `Vector3.__iadd__` of `math/classes.py`: mutates the three components
of the receiver in place and falls off the end of the method body, so its
return value is Python `None`.  The first component of the result is the
mutated receiver state, the second the returned value. -/
def vector3_iadd (self other : Vector3) : Vector3 × Option Vector3 :=
  (⟨self.x + other.x, self.y + other.y, self.z + other.z⟩, none)

/-- `Vector3.__isub__` of `math/classes.py`: as `__iadd__`, with
subtraction. -/
def vector3_isub (self other : Vector3) : Vector3 × Option Vector3 :=
  (⟨self.x - other.x, self.y - other.y, self.z - other.z⟩, none)

/-- Python's augmented assignment `v += u`: rebinds `v` to the value
returned by `type(v).__iadd__(v, u)`. -/
def aug_add (v u : Vector3) : Option Vector3 := (vector3_iadd v u).2

/-- Python's augmented assignment `v -= u`. -/
def aug_sub (v u : Vector3) : Option Vector3 := (vector3_isub v u).2

end MathClasses

/-! ## Shared algebra lemmas -/

/-- The Hamilton product is associative. -/
theorem quat_mul_assoc (a b c : Quaternion) :
    Quaternion.mul (Quaternion.mul a b) c =
      Quaternion.mul a (Quaternion.mul b c) := by
  ext <;> simp [Quaternion.mul] <;> ring_nf

/-- Rotating by a unit quaternion and then by its conjugate restores the
vector. -/
theorem rotate_conj_rotate (q : Quaternion) (v : Vector3)
    (h : q.normSq = 1) :
    Quaternion.rotate q.conj (Quaternion.rotate q v) = v := by
  have h' : q.w ^ 2 + q.x ^ 2 + q.y ^ 2 + q.z ^ 2 = 1 := h
  ext
  · show _ = v.x
    simp only [Quaternion.rotate, Quaternion.mul, Quaternion.conj,
      Quaternion.ofVector]
    linear_combination (q.w ^ 2 + q.x ^ 2 + q.y ^ 2 + q.z ^ 2 + 1) * v.x * h'
  · show _ = v.y
    simp only [Quaternion.rotate, Quaternion.mul, Quaternion.conj,
      Quaternion.ofVector]
    linear_combination (q.w ^ 2 + q.x ^ 2 + q.y ^ 2 + q.z ^ 2 + 1) * v.y * h'
  · show _ = v.z
    simp only [Quaternion.rotate, Quaternion.mul, Quaternion.conj,
      Quaternion.ofVector]
    linear_combination (q.w ^ 2 + q.x ^ 2 + q.y ^ 2 + q.z ^ 2 + 1) * v.z * h'

/-- For a non-zero vector, the normalized vector is a unit vector (squared
norm one). -/
theorem normalized_unit (a : Vector3) (h : a ≠ Vector3.zero) :
    Vector3.dot a.normalized a.normalized = 1 := by
  have hge : 0 ≤ Vector3.dot a a := by
    simp only [Vector3.dot]
    nlinarith [sq_nonneg a.x, sq_nonneg a.y, sq_nonneg a.z]
  have hpos : 0 < Vector3.dot a a := by
    rcases eq_or_lt_of_le hge with heq | hlt
    · exfalso
      apply h
      have heq' : a.x * a.x + a.y * a.y + a.z * a.z = 0 := by
        simpa [Vector3.dot] using heq.symm
      have hx : a.x = 0 := by nlinarith
      have hy : a.y = 0 := by nlinarith
      have hz : a.z = 0 := by nlinarith
      ext <;> simp [hx, hy, hz, Vector3.zero]
    · exact hlt
  have hne : Real.sqrt (Vector3.dot a a) ≠ 0 := Real.sqrt_ne_zero'.mpr hpos
  have hsq : Real.sqrt (Vector3.dot a a) * Real.sqrt (Vector3.dot a a) =
      Vector3.dot a a := Real.mul_self_sqrt hge
  simp only [Vector3.dot] at hne hsq
  simp only [Vector3.normalized, Vector3.norm, Vector3.dot]
  field_simp
  linarith [hsq]

/-- On unit quaternions the conjugate and the inverse coincide. -/
theorem quat_inv_eq_conj (q : Quaternion) (h : q.normSq = 1) :
    Quaternion.inv q = Quaternion.conj q := by
  ext <;> simp [Quaternion.inv, Quaternion.conj, h]

/-! ## C6, C7, C8 -/

/-- C7: for every `Posable` whose pose rotation is a unit quaternion and
every `Vector3` `v`, `to_local_direction (to_parent_direction v) = v` and
`to_local_frame (to_parent_frame v) = v` (exactly, hence within floating
tolerance). -/
theorem frame_round_trip (P : Posable) (v : Vector3)
    (h : P.pose.rotation.normSq = 1) :
    P.to_local_direction (P.to_parent_direction v) = v ∧
    P.to_local_frame (P.to_parent_frame v) = v := by
  constructor
  · exact rotate_conj_rotate P.pose.rotation v h
  · show Quaternion.rotate P.pose.rotation.conj
      ((Quaternion.rotate P.pose.rotation v + P.pose.position) -
        P.pose.position) = v
    have hc : (Quaternion.rotate P.pose.rotation v + P.pose.position) -
        P.pose.position = Quaternion.rotate P.pose.rotation v := by
      ext <;> simp
    rw [hc]
    exact rotate_conj_rotate P.pose.rotation v h

/-- Witness for C7 at the unit quaternion `(3/5, 4/5, 0, 0)` and the
vector `(1, 2, 3)`. -/
theorem frame_round_trip_witness :
    (Posable.mk ⟨⟨1, 2, 3⟩, ⟨3 / 5, 4 / 5, 0, 0⟩⟩).pose.rotation.normSq = 1 ∧
    ((Posable.mk ⟨⟨1, 2, 3⟩, ⟨3 / 5, 4 / 5, 0, 0⟩⟩).to_local_direction
      ((Posable.mk ⟨⟨1, 2, 3⟩, ⟨3 / 5, 4 / 5, 0, 0⟩⟩).to_parent_direction
        ⟨5, 6, 7⟩) = ⟨5, 6, 7⟩ ∧
     (Posable.mk ⟨⟨1, 2, 3⟩, ⟨3 / 5, 4 / 5, 0, 0⟩⟩).to_local_frame
      ((Posable.mk ⟨⟨1, 2, 3⟩, ⟨3 / 5, 4 / 5, 0, 0⟩⟩).to_parent_frame
        ⟨5, 6, 7⟩) = ⟨5, 6, 7⟩) := by
  have hu : (Posable.mk ⟨⟨1, 2, 3⟩,
      ⟨3 / 5, 4 / 5, 0, 0⟩⟩).pose.rotation.normSq = 1 := by
    norm_num [Quaternion.normSq]
  exact ⟨hu, frame_round_trip (Posable.mk ⟨⟨1, 2, 3⟩, ⟨3 / 5, 4 / 5, 0, 0⟩⟩)
    ⟨5, 6, 7⟩ hu⟩

/-- C8: for every posable and nonzero axis, `rotate_around(axis, θ1)`
followed by `rotate_around(axis, θ2)` (with `relative_to_child` false)
produces exactly the state of a single `rotate_around(axis, θ1 + θ2)`,
and hence rotates every vector the same way. -/
theorem rotate_around_composes (P : Posable) (axis : Vector3) (θ1 θ2 : ℝ)
    (h : axis ≠ Vector3.zero) :
    (P.rotate_around axis θ1 false).rotate_around axis θ2 false =
      P.rotate_around axis (θ1 + θ2) false := by
  have hn : axis.normalized.x ^ 2 + axis.normalized.y ^ 2 +
      axis.normalized.z ^ 2 = 1 := by
    have := normalized_unit axis h
    simpa [Vector3.dot, sq] using this
  have key : Quaternion.mul (Quaternion.new_rotate_axis θ2 axis)
      (Quaternion.new_rotate_axis θ1 axis) =
      Quaternion.new_rotate_axis (θ1 + θ2) axis := by
    have harg : (θ1 + θ2) / 2 = θ2 / 2 + θ1 / 2 := by ring
    ext
    · show _ = Real.cos ((θ1 + θ2) / 2)
      rw [harg, Real.cos_add]
      simp only [Quaternion.new_rotate_axis, Quaternion.mul]
      linear_combination (-(Real.sin (θ2 / 2) * Real.sin (θ1 / 2))) * hn
    · show _ = axis.normalized.x * Real.sin ((θ1 + θ2) / 2)
      rw [harg, Real.sin_add]
      simp only [Quaternion.new_rotate_axis, Quaternion.mul]
      ring
    · show _ = axis.normalized.y * Real.sin ((θ1 + θ2) / 2)
      rw [harg, Real.sin_add]
      simp only [Quaternion.new_rotate_axis, Quaternion.mul]
      ring
    · show _ = axis.normalized.z * Real.sin ((θ1 + θ2) / 2)
      rw [harg, Real.sin_add]
      simp only [Quaternion.new_rotate_axis, Quaternion.mul]
      ring
  show Posable.mk ⟨P.pose.position, _⟩ = Posable.mk ⟨P.pose.position, _⟩
  simp only [Posable.rotate_around, Posable.set_rotation,
    Posable.get_rotation, if_neg (by simp : ¬(false = true))]
  rw [← key, quat_mul_assoc]

/-- Witness for C8 at axis `(0, 0, 1)` and angles `θ1 = θ2 = 0`. -/
theorem rotate_around_composes_witness :
    (⟨0, 0, 1⟩ : Vector3) ≠ Vector3.zero ∧
    ((Posable.mk Pose.identity).rotate_around ⟨0, 0, 1⟩ 0
        false).rotate_around ⟨0, 0, 1⟩ 0 false =
      (Posable.mk Pose.identity).rotate_around ⟨0, 0, 1⟩ (0 + 0) false := by
  have hz : (⟨0, 0, 1⟩ : Vector3) ≠ Vector3.zero := by
    intro hcontra
    exact one_ne_zero (congrArg Vector3.z hcontra)
  exact ⟨hz, rotate_around_composes (Posable.mk Pose.identity) ⟨0, 0, 1⟩ 0 0 hz⟩

/-- C6: for every `PosableGroup` with bookkeeping position `p0` and unit
bookkeeping rotation `R0`, `set_rotation(r)` gives each frame-affected
child with pre-call pose `(p, q)` the new absolute position
`r * (R0⁻¹ * (p - p0)) + p0` and the new absolute rotation
`r * (R0⁻¹ * q)`, each computed solely from that child's own pre-call
pose and the group's pre-call pose, and finally stores `r` as the group's
own rotation. -/
theorem posable_group_set_rotation_spec (g : PosableGroup) (r : Quaternion)
    (i : ℕ) (p : Pose) (hunit : g.pose.rotation.normSq = 1)
    (hi : g.elements.get? i = some (.posable true p)) :
    (g.set_rotation r).elements.get? i = some (.posable true
      ⟨Quaternion.rotate r (Quaternion.rotate (Quaternion.inv g.pose.rotation)
          (p.position - g.pose.position)) + g.pose.position,
        Quaternion.mul r (Quaternion.mul (Quaternion.inv g.pose.rotation)
          p.rotation)⟩) ∧
    (g.set_rotation r).pose.rotation = r ∧
    (g.set_rotation r).pose.position = g.pose.position := by
  refine ⟨?_, rfl, rfl⟩
  rw [quat_inv_eq_conj g.pose.rotation hunit]
  show (g.elements.map _).get? i = _
  rw [List.get?_map, hi]
  rfl

/-- Witness for C6: a group at the identity pose with one frame-affected
child at position `(1, 2, 3)`, rotated by the unit quaternion
`(0, 0, 0, 1)`. -/
theorem posable_group_set_rotation_witness :
    (PosableGroup.mk Pose.identity
        [.posable true ⟨⟨1, 2, 3⟩, Quaternion.one⟩]).pose.rotation.normSq
      = 1 ∧
    (PosableGroup.mk Pose.identity
        [.posable true ⟨⟨1, 2, 3⟩, Quaternion.one⟩]).elements.get? 0 =
      some (.posable true ⟨⟨1, 2, 3⟩, Quaternion.one⟩) ∧
    ((PosableGroup.mk Pose.identity
        [.posable true ⟨⟨1, 2, 3⟩, Quaternion.one⟩]).set_rotation
          ⟨0, 0, 0, 1⟩).elements.get? 0 = some (.posable true
      ⟨Quaternion.rotate ⟨0, 0, 0, 1⟩ (Quaternion.rotate
          (Quaternion.inv Quaternion.one)
          (Vector3.mk 1 2 3 - Vector3.zero)) + Vector3.zero,
        Quaternion.mul ⟨0, 0, 0, 1⟩ (Quaternion.mul
          (Quaternion.inv Quaternion.one) Quaternion.one)⟩) := by
  have hu : (PosableGroup.mk Pose.identity
      [.posable true ⟨⟨1, 2, 3⟩, Quaternion.one⟩]).pose.rotation.normSq = 1 := by
    norm_num [Quaternion.normSq, Pose.identity, Quaternion.one]
  have hget : (PosableGroup.mk Pose.identity
      [.posable true ⟨⟨1, 2, 3⟩, Quaternion.one⟩]).elements.get? 0 =
      some (.posable true ⟨⟨1, 2, 3⟩, Quaternion.one⟩) := rfl
  exact ⟨hu, hget, (posable_group_set_rotation_spec _ ⟨0, 0, 0, 1⟩ 0
    ⟨⟨1, 2, 3⟩, Quaternion.one⟩ hu hget).1⟩

/-- A group with the *non-unit* bookkeeping rotation `(2, 0, 0, 0)` and
one frame-affected child at `(1, 0, 0)` with identity rotation. -/
def gC6 : PosableGroup :=
  ⟨⟨Vector3.zero, ⟨2, 0, 0, 0⟩⟩, [.posable true ⟨⟨1, 0, 0⟩, Quaternion.one⟩]⟩

/-- Counterexample to C6 as universally stated: for the non-unit
bookkeeping rotation `R0 = (2, 0, 0, 0)`, the rotation `set_rotation`
stores on the child is the Hamilton product `r * (conj(R0) * q) =
(2, 0, 0, 0)`, which differs from the claim's `r * (R0⁻¹ * q) =
(1/2, 0, 0, 0)`: the conjugate equals the inverse only on unit
quaternions.  (This divergence is a plain quaternion *value*, independent
of how the quaternion-on-vector action of the missing vendored module is
modelled: no vector action is involved.) -/
theorem posable_group_set_rotation_nonunit_counterexample :
    ∃ p' : Pose,
      (gC6.set_rotation Quaternion.one).elements.get? 0 =
        some (.posable true p') ∧
      p'.rotation = ⟨2, 0, 0, 0⟩ ∧
      p'.rotation ≠ Quaternion.mul Quaternion.one
        (Quaternion.mul (Quaternion.inv gC6.pose.rotation)
          Quaternion.one) := by
  refine ⟨⟨Quaternion.rotate Quaternion.one (Quaternion.rotate
      (Quaternion.conj ⟨2, 0, 0, 0⟩) (Vector3.mk 1 0 0 - Vector3.zero)) +
        Vector3.zero,
      Quaternion.mul Quaternion.one (Quaternion.mul
        (Quaternion.conj ⟨2, 0, 0, 0⟩) Quaternion.one)⟩, rfl, ?_, ?_⟩
  · show Quaternion.mul Quaternion.one (Quaternion.mul
      (Quaternion.conj ⟨2, 0, 0, 0⟩) Quaternion.one) = ⟨2, 0, 0, 0⟩
    ext <;> norm_num [Quaternion.mul, Quaternion.conj, Quaternion.one]
  · have hcode : Quaternion.mul Quaternion.one (Quaternion.mul
        (Quaternion.conj ⟨2, 0, 0, 0⟩) Quaternion.one) = ⟨2, 0, 0, 0⟩ := by
      ext <;> norm_num [Quaternion.mul, Quaternion.conj, Quaternion.one]
    have hclaim : Quaternion.mul Quaternion.one (Quaternion.mul
        (Quaternion.inv gC6.pose.rotation) Quaternion.one) =
        ⟨1 / 2, 0, 0, 0⟩ := by
      ext <;> norm_num [gC6, Quaternion.mul, Quaternion.inv,
        Quaternion.normSq, Quaternion.one]
    rw [hcode, hclaim]
    intro hcontra
    have hw := congrArg Quaternion.w hcontra
    norm_num at hw

/-! ## C9, C10 -/

/-- C9: for every `Vector3` or `Quaternion` of `math/classes.py` (any
data, any magnitude), the in-place `VectorBase.normalize` raises
`TypeError` instead of normalizing the object, because it divides
`self.data` by the bound method `self.norm` rather than the scalar
`self.norm()`. -/
theorem classes_normalize_always_type_error (v : MathClasses.VectorBase) :
    MathClasses.VectorBase.normalize v = .error .typeError := rfl

/-- C10: `Vector3.__iadd__` and `Vector3.__isub__` of `math/classes.py`
mutate the receiver componentwise but return `None`, so the augmented
assignments `v += u` and `v -= u` rebind the variable to `None` instead
of the updated vector. -/
theorem classes_iadd_isub_return_none (v u : Vector3) :
    MathClasses.vector3_iadd v u =
      (⟨v.x + u.x, v.y + u.y, v.z + u.z⟩, none) ∧
    MathClasses.vector3_isub v u =
      (⟨v.x - u.x, v.y - u.y, v.z - u.z⟩, none) ∧
    MathClasses.aug_add v u = none ∧ MathClasses.aug_sub v u = none :=
  ⟨rfl, rfl, rfl, rfl⟩

/-! ## C5: the `align` preconditions -/

/-- C5: `align` raises `ValueError` whenever one of the two
normal/tangent pairs fails the `vectors_orthogonal` test (normalized dot
product exceeding `EPSILON = 1e-5` in absolute value), and in that case
the returned state is exactly the pre-call state of `self`: the
orthogonality checks run before any mutation. -/
theorem align_precondition_atomic (self of : Posable)
    (my my_normal my_tangent at_v at_normal at_tangent : Vector3)
    (rtc : Bool)
    (h : ¬ vectors_orthogonal my_normal my_tangent ∨
      ¬ vectors_orthogonal at_normal at_tangent) :
    ∃ msg, Posable.align self my my_normal my_tangent at_v at_normal
      at_tangent of rtc = (self, some (.valueError msg)) := by
  by_cases h1 : vectors_orthogonal my_normal my_tangent
  · have h2 : ¬ vectors_orthogonal at_normal at_tangent := by
      rcases h with ha | hb
      · exact absurd h1 ha
      · exact hb
    refine ⟨"`at_normal` and `at_tangent` should be orthogonal.", ?_⟩
    simp [Posable.align, h1, h2]
  · refine ⟨"`my_normal` and `my_tangent` should be orthogonal.", ?_⟩
    simp [Posable.align, h1]

/-- Witness for C5: the pair `(1, 0, 0)`, `(1, 0, 0)` is maximally
non-orthogonal (normalized dot product 1), so `align` on two
identity-posed posables returns the unchanged state together with the
`ValueError`. -/
theorem align_precondition_atomic_witness :
    (¬ vectors_orthogonal ⟨1, 0, 0⟩ ⟨1, 0, 0⟩ ∨
      ¬ vectors_orthogonal ⟨0, 1, 0⟩ ⟨0, 0, 1⟩) ∧
    ∃ msg, Posable.align (Posable.mk Pose.identity) ⟨0, 0, 1⟩ ⟨1, 0, 0⟩
      ⟨1, 0, 0⟩ ⟨0, 0, 1⟩ ⟨0, 1, 0⟩ ⟨0, 0, 1⟩ (Posable.mk Pose.identity)
      true = (Posable.mk Pose.identity, some (.valueError msg)) := by
  have h : ¬ vectors_orthogonal ⟨1, 0, 0⟩ ⟨1, 0, 0⟩ := by
    simp only [vectors_orthogonal, Vector3.normalized, Vector3.norm,
      Vector3.dot, EPSILON]
    norm_num [Real.sqrt_one]
  exact ⟨Or.inl h, align_precondition_atomic (Posable.mk Pose.identity)
    (Posable.mk Pose.identity) ⟨0, 0, 1⟩ ⟨1, 0, 0⟩ ⟨1, 0, 0⟩ ⟨0, 0, 1⟩
    ⟨0, 1, 0⟩ ⟨0, 0, 1⟩ true (Or.inl h)⟩

/-! ## C4: the `align` postcondition -/

/-- The square root of four. -/
theorem sqrt_four : Real.sqrt 4 = 2 := by
  rw [show (4 : ℝ) = 2 ^ 2 by norm_num, Real.sqrt_sq (by norm_num : (0:ℝ) ≤ 2)]

/-- A posable whose pose rotation is the unit quaternion `(0, 0, 0, 1)`
(a 180° rotation about the z axis), at the origin. -/
def selfC4 : Posable := ⟨⟨Vector3.zero, ⟨0, 0, 0, 1⟩⟩⟩

/-- A posable at the identity pose. -/
def ofC4 : Posable := ⟨Pose.identity⟩

/-- C4 evaluated at a failing input: `self` posed with the *unit* (but
non-identity) rotation `(0, 0, 0, 1)`, `of` at the identity, the
orthogonal unit pairs `my_normal = at_normal = (1,0,0)`,
`my_tangent = at_tangent = (0,1,0)` and reference points
`my = at = (0,0,1)`.  The claim's hypotheses all hold, yet `align`
raises its own `AssertionError` "Normal vectors failed to align!"
(because it *replaces* the rotation by `r2·r1ᵀ` instead of composing it
with the pre-existing rotation), and the post-rotation normals are
parallel (normalized dot product 1) instead of antiparallel
(`≤ -1 + 1e-5`) as the claim requires. -/
theorem align_postcondition_fails_for_rotated_self :
    Quaternion.normSq selfC4.pose.rotation = 1 ∧
    Quaternion.normSq ofC4.pose.rotation = 1 ∧
    vectors_orthogonal ⟨1, 0, 0⟩ ⟨0, 1, 0⟩ ∧
    (Posable.align selfC4 ⟨0, 0, 1⟩ ⟨1, 0, 0⟩ ⟨0, 1, 0⟩ ⟨0, 0, 1⟩
      ⟨1, 0, 0⟩ ⟨0, 1, 0⟩ ofC4 true) =
      (Posable.mk ⟨Vector3.zero, ⟨0, 1, 0, 0⟩⟩,
        some (.assertionError "Normal vectors failed to align!")) ∧
    Vector3.dot (((Posable.mk ⟨Vector3.zero, ⟨0, 1, 0, 0⟩⟩ :
          Posable).to_parent_direction ⟨1, 0, 0⟩).normalized)
        ((ofC4.to_parent_direction ⟨1, 0, 0⟩).normalized) = 1 := by
  have horth : vectors_orthogonal ⟨1, 0, 0⟩ ⟨0, 1, 0⟩ := by
    norm_num [vectors_orthogonal, Vector3.normalized, Vector3.norm,
      Vector3.dot, EPSILON, Real.sqrt_one]
  have hmyx : ((selfC4.to_parent_direction ⟨1, 0, 0⟩ : Vector3)).normalized
      = ⟨-1, 0, 0⟩ := by
    norm_num [selfC4, Posable.to_parent_direction, Pose.to_parent_direction,
      Quaternion.rotate, Quaternion.mul, Quaternion.conj,
      Quaternion.ofVector, Vector3.normalized, Vector3.norm, Vector3.dot,
      Real.sqrt_one]
  have hmyy : ((selfC4.to_parent_direction ⟨0, 1, 0⟩ : Vector3)).normalized
      = ⟨0, -1, 0⟩ := by
    norm_num [selfC4, Posable.to_parent_direction, Pose.to_parent_direction,
      Quaternion.rotate, Quaternion.mul, Quaternion.conj,
      Quaternion.ofVector, Vector3.normalized, Vector3.norm, Vector3.dot,
      Real.sqrt_one]
  have hatx : ((ofC4.to_parent_direction (-(⟨1, 0, 0⟩ : Vector3)) :
      Vector3)).normalized = ⟨-1, 0, 0⟩ := by
    norm_num [ofC4, Posable.to_parent_direction, Pose.to_parent_direction,
      Pose.identity, Quaternion.one, Quaternion.rotate, Quaternion.mul,
      Quaternion.conj, Quaternion.ofVector, Vector3.normalized,
      Vector3.norm, Vector3.dot, Real.sqrt_one]
  have haty : ((ofC4.to_parent_direction ⟨0, 1, 0⟩ : Vector3)).normalized
      = ⟨0, 1, 0⟩ := by
    norm_num [ofC4, Posable.to_parent_direction, Pose.to_parent_direction,
      Pose.identity, Quaternion.one, Quaternion.rotate, Quaternion.mul,
      Quaternion.conj, Quaternion.ofVector, Vector3.normalized,
      Vector3.norm, Vector3.dot, Real.sqrt_one]
  have hrot : align_rotation selfC4 ofC4 ⟨1, 0, 0⟩ ⟨0, 1, 0⟩ ⟨1, 0, 0⟩
      ⟨0, 1, 0⟩ = ⟨0, 1, 0, 0⟩ := by
    simp only [align_rotation, hmyx, hmyy, hatx, haty]
    norm_num [Vector3.cross, Mat3.ofColumns, Mat3.mul, Mat3.transpose,
      Mat3.get_quaternion, sqrt_four]
  have hd1 : ((Posable.mk ⟨Vector3.zero, ⟨0, 1, 0, 0⟩⟩ :
      Posable).to_parent_direction ⟨1, 0, 0⟩ : Vector3) = ⟨1, 0, 0⟩ := by
    norm_num [Posable.to_parent_direction, Pose.to_parent_direction,
      Quaternion.rotate, Quaternion.mul, Quaternion.conj,
      Quaternion.ofVector]
  have hd2 : (ofC4.to_parent_direction (-(⟨1, 0, 0⟩ : Vector3)) :
      Vector3) = ⟨-1, 0, 0⟩ := by
    norm_num [ofC4, Posable.to_parent_direction, Pose.to_parent_direction,
      Pose.identity, Quaternion.one, Quaternion.rotate, Quaternion.mul,
      Quaternion.conj, Quaternion.ofVector]
  have hnp : ¬ vectors_parallel ⟨1, 0, 0⟩ ⟨-1, 0, 0⟩ := by
    norm_num [vectors_parallel, vector_parallellism, Vector3.normalized,
      Vector3.norm, Vector3.dot, EPSILON, OPPOSITE, PARALLEL,
      Real.sqrt_one]
  refine ⟨by norm_num [selfC4, Quaternion.normSq],
    by norm_num [ofC4, Pose.identity, Quaternion.one, Quaternion.normSq],
    horth, ?_, ?_⟩
  · simp only [Posable.align, horth, not_true_eq_false, if_false,
      if_true, hrot, ite_false, ite_true]
    simp only [Posable.set_rotation, selfC4]
    simp only [hd1, hd2]
    simp [hnp]
  · have : ((Posable.mk ⟨Vector3.zero, ⟨0, 1, 0, 0⟩⟩ :
        Posable).to_parent_direction ⟨1, 0, 0⟩ : Vector3).normalized =
        ⟨1, 0, 0⟩ := by
      rw [hd1]
      norm_num [Vector3.normalized, Vector3.norm, Vector3.dot,
        Real.sqrt_one]
    rw [this]
    have h2 : ((ofC4.to_parent_direction ⟨1, 0, 0⟩ : Vector3)).normalized =
        ⟨1, 0, 0⟩ := by
      norm_num [ofC4, Posable.to_parent_direction, Pose.to_parent_direction,
        Pose.identity, Quaternion.one, Quaternion.rotate, Quaternion.mul,
        Quaternion.conj, Quaternion.ofVector, Vector3.normalized,
        Vector3.norm, Vector3.dot, Real.sqrt_one]
    rw [h2]
    norm_num [Vector3.dot]

end SdfB
